import Mathlib

/-!
Verification development for the pixie repository.

Shallow embedding of:
* the query-compiler IR graph model (`src/carnot/compiler/ir/ir_nodes.h`):
  node factory, node copying, duplicate-safe edge attachment, operator
  serialization stubs, the `TimeIR` literal, metadata column formatting and
  the `JoinIR` join-type setters;
* the cron-script store service (Go, package `cronscript`);
* the deployment configuration generator (Go, `package main`).
-/

namespace Pixie

/-! ## Common string helpers -/

/-- Model of `absl::Substitute`: replaces `$0`..`$9` in the template with the
corresponding positional argument. -/
def substitute (args : List String) : List Char → String
  | [] => ""
  | '$' :: c :: rest =>
      if c.isDigit then (args.getD (c.toNat - 48) "") ++ substitute args rest
      else String.singleton '$' ++ String.singleton c ++ substitute args rest
  | c :: rest => String.singleton c ++ substitute args rest

/-- `absl::Substitute` on a `String` template. -/
def substituteStr (template : String) (args : List String) : String :=
  substitute args template.data

/-- Model of `absl::AsciiStrToLower`: maps ASCII upper-case letters to
lower-case, leaves other characters unchanged. -/
def asciiStrToLower (s : String) : String :=
  ⟨s.data.map Char.toLower⟩

instance {ε α : Type} [DecidableEq ε] [DecidableEq α] :
    DecidableEq (Except ε α) := fun a b =>
  match a, b with
  | Except.ok x, Except.ok y =>
      if h : x = y then Decidable.isTrue (by rw [h])
      else Decidable.isFalse (by intro hh; cases hh; exact h rfl)
  | Except.ok _, Except.error _ =>
      Decidable.isFalse (by intro hh; cases hh)
  | Except.error _, Except.ok _ =>
      Decidable.isFalse (by intro hh; cases hh)
  | Except.error x, Except.error y =>
      if h : x = y then Decidable.isTrue (by rw [h])
      else Decidable.isFalse (by intro hh; cases hh; exact h rfl)

/-- Model of Go `strings.Replace(s, old, new, -1)`: replaces non-overlapping
occurrences left to right.  Structural recursion on a fuel of the input
length (each step consumes at least one character); the degenerate empty
pattern is modelled as the identity. -/
def replaceCharsFuel (olds news : List Char) : Nat → List Char → List Char
  | 0, l => l
  | _ + 1, [] => []
  | fuel + 1, c :: rest =>
      if olds ≠ [] ∧ olds.isPrefixOf (c :: rest) then
        news ++ replaceCharsFuel olds news fuel ((c :: rest).drop olds.length)
      else c :: replaceCharsFuel olds news fuel rest

/-- `strings.Replace(s, old, new, -1)` on `String`s. -/
def replaceAll (s old new : String) : String :=
  ⟨replaceCharsFuel old.data new.data s.data.length s.data⟩

/-! ## Status (`pl::Status`, from `src/common/base`)

The IR code returns `Status` / `StatusOr`.  Only the codes that the embedded
functions produce are modelled. -/

inductive StatusCode
  | ok
  | unimplemented
  | invalidArgument
  deriving DecidableEq, Repr

structure Status where
  code : StatusCode
  msg : String
  deriving DecidableEq, Repr

/-- `error::Unimplemented(...)` builds a `Status` with the `UNIMPLEMENTED`
code and the substituted message. -/
def errorUnimplemented (template : String) (args : List String) : Status :=
  ⟨StatusCode.unimplemented, substituteStr template args⟩

/-- `error::InvalidArgument(...)`. -/
def errorInvalidArgument (template : String) (args : List String) : Status :=
  ⟨StatusCode.invalidArgument, substituteStr template args⟩

/-! ## The IR node type enumeration (`enum class IRNodeType`) -/

inductive IRNodeType
  | kAny
  | kMemorySource
  | kMemorySink
  | kMap
  | kDrop
  | kBlockingAgg
  | kFilter
  | kLimit
  | kString
  | kUInt128
  | kFloat
  | kInt
  | kBool
  | kFunc
  | kList
  | kTuple
  | kColumn
  | kTime
  | kMetadata
  | kMetadataResolver
  | kMetadataLiteral
  | kGRPCSourceGroup
  | kGRPCSource
  | kGRPCSink
  | kUnion
  | kJoin
  | kTabletSourceGroup
  | kGroupBy
  | kUDTFSource
  deriving DecidableEq, Repr

open IRNodeType

/-- The integer value of each enumerator (`kAny = -1`, then consecutive). -/
def IRNodeType.toIndex : IRNodeType → Int
  | kAny => -1
  | kMemorySource => 0
  | kMemorySink => 1
  | kMap => 2
  | kDrop => 3
  | kBlockingAgg => 4
  | kFilter => 5
  | kLimit => 6
  | kString => 7
  | kUInt128 => 8
  | kFloat => 9
  | kInt => 10
  | kBool => 11
  | kFunc => 12
  | kList => 13
  | kTuple => 14
  | kColumn => 15
  | kTime => 16
  | kMetadata => 17
  | kMetadataResolver => 18
  | kMetadataLiteral => 19
  | kGRPCSourceGroup => 20
  | kGRPCSource => 21
  | kGRPCSink => 22
  | kUnion => 23
  | kJoin => 24
  | kTabletSourceGroup => 25
  | kGroupBy => 26
  | kUDTFSource => 27

/-- `kIRNodeStrings`, in the positional order of the enumeration. -/
def kIRNodeStrings : List String :=
  ["MemorySource", "MemorySink", "Map", "Drop", "BlockingAgg", "Filter",
   "Limit", "String", "UInt128Value", "Float", "Int", "Bool", "Func", "List",
   "Tuple", "Column", "Time", "Metadata", "MetadataResolver",
   "MetadataLiteral", "GRPCSourceGroup", "GRPCSource", "GRPCSink", "Union",
   "Join", "TabletSourceGroup", "GroupBy", "UDTFSource"]

/-- `IRNode::TypeString`: positional lookup of the node-type name. -/
def TypeString (t : IRNodeType) : String :=
  kIRNodeStrings.getD t.toIndex.toNat ""

/-- Whether the node type is an Operator variant (subclass of `OperatorIR`). -/
def IRNodeType.isOperatorType : IRNodeType → Bool
  | kMemorySource | kMemorySink | kMap | kDrop | kBlockingAgg | kFilter
  | kLimit | kMetadataResolver | kGRPCSourceGroup | kGRPCSource | kGRPCSink
  | kUnion | kJoin | kTabletSourceGroup | kGroupBy | kUDTFSource => true
  | _ => false

/-! ## The IR graph (`class IR`)

Nodes carry an id, a type tag and an abstract per-variant payload (the
attributes that `CopyFromNode` transfers verbatim).  The graph owns the nodes
in `id_node_map_`, keeps the edge set of the `plan::DAG`, and the
`id_node_counter`.

The `plan::DAG` container itself (`src/carnot/plan/dag.h`) is not part of the
source tree; per the spec the graph "maintains a directed edge set ... a
parent/child pair has at most one edge", so edges are modelled as a
duplicate-free list of (from-id, to-id) pairs and `AddEdge` inserts a pair
only when it is absent. -/

/-- The per-variant attributes of a node.  `CopyFromNodeImpl` bodies live in
the `.cc` file; per the spec, copying "preserves all per-variant attributes",
so the payload is carried verbatim by the copy. -/
structure NodePayload where
  data : Int
  deriving DecidableEq, Repr

structure IRNode where
  id : Int
  ntype : IRNodeType
  payload : NodePayload
  /-- stands for `graph_ptr_`, the address of the owning graph. -/
  graphGid : Nat
  deriving DecidableEq, Repr

structure IR where
  /-- stands for the graph object's own address (`this`). -/
  gid : Nat
  /-- `id_node_map_` (and the DAG's node set, which mirrors its key set). -/
  nodes : List IRNode
  /-- the DAG's directed edge set. -/
  edges : List (Int × Int)
  id_node_counter : Int
  deriving DecidableEq, Repr

/-- A freshly constructed graph: empty, counter `0`. -/
def IR.empty (gid : Nat) : IR :=
  ⟨gid, [], [], 0⟩

def IR.nodeIds (g : IR) : List Int :=
  g.nodes.map IRNode.id

def IR.hasNodeId (g : IR) (id : Int) : Bool :=
  g.nodeIds.contains id

/-- `IR::MakeNode(int64_t id, ast)`:
`id_node_counter = std::max(id + 1, id_node_counter)`, registers the node in
the DAG, sets its graph back-pointer, and emplaces it into `id_node_map_`
(emplace does not overwrite an existing key). Returns the new node. -/
def IR.MakeNode (g : IR) (t : IRNodeType) (p : NodePayload) (id : Int) :
    IR × IRNode :=
  let counter := max (id + 1) g.id_node_counter
  let node : IRNode := ⟨id, t, p, g.gid⟩
  let nodes := if g.hasNodeId id then g.nodes else g.nodes ++ [node]
  (⟨g.gid, nodes, g.edges, counter⟩, node)

/-- `IR::MakeNode(ast)`: creates a node with the next available id
(`id_node_counter`). -/
def IR.MakeNodeAuto (g : IR) (t : IRNodeType) (p : NodePayload) :
    IR × IRNode :=
  g.MakeNode t p g.id_node_counter

/-- `IR::HasEdge`. -/
def IR.HasEdge (g : IR) (from_node to_node : IRNode) : Bool :=
  g.edges.contains (from_node.id, to_node.id)

/-- `IR::AddEdge` on the DAG's edge set: inserts the pair when absent. -/
def IR.AddEdge (g : IR) (from_node to_node : IRNode) : IR :=
  if g.HasEdge from_node to_node then g
  else ⟨g.gid, g.nodes, g.edges ++ [(from_node.id, to_node.id)], g.id_node_counter⟩

/-- `IR::CopyNode` (single node, fresh `copied_nodes_map`):
`new_node_id = this == source->graph_ptr() ? id_node_counter : source->id()`,
then `MakeNodeWithType(source->type(), new_node_id)` followed by
`CopyFromNode`, which transfers the per-variant payload and preserves the
node type (`CHECK_EQ(new_node->type(), source->type())`). -/
def IR.CopyNode (g : IR) (source : IRNode) : IR × IRNode :=
  let new_node_id := if g.gid = source.graphGid then g.id_node_counter
                     else source.id
  g.MakeNode source.ntype source.payload new_node_id

/-- `IR::OptionallyCloneWithEdge`: if the parent and the child are already
connected, the child is cloned and the edge is added between the parent and
the clone; otherwise the edge is added to the child itself.  Returns the
child that now has the edge. -/
def IR.OptionallyCloneWithEdge (g : IR) (parent child : IRNode) :
    IR × IRNode :=
  if g.HasEdge parent child then
    (((g.CopyNode child).1).AddEdge parent (g.CopyNode child).2,
     (g.CopyNode child).2)
  else
    (g.AddEdge parent child, child)

/-! ### Reachable graph states

The operations a compiler pass applies to a graph, as exposed by the header:
node creation (automatic or explicit id), raw edge insertion, and the
duplicate-safe attach.  A state is reachable when it arises from the empty
graph by a sequence of these operations (operations naming a node id that is
absent are skipped, mirroring that a caller only holds pointers to nodes of
this graph). -/

inductive GraphOp
  | makeAuto (t : IRNodeType) (p : NodePayload)
  | makeWithId (t : IRNodeType) (p : NodePayload) (id : Int)
  | addEdge (fromId toId : Int)
  | optClone (parentId childId : Int)
  deriving DecidableEq, Repr

def IR.findNode (g : IR) (id : Int) : Option IRNode :=
  g.nodes.find? (fun n => n.id = id)

def IR.applyOp (g : IR) : GraphOp → IR
  | GraphOp.makeAuto t p => (g.MakeNodeAuto t p).1
  | GraphOp.makeWithId t p id => (g.MakeNode t p id).1
  | GraphOp.addEdge a b =>
      match g.findNode a, g.findNode b with
      | some na, some nb => g.AddEdge na nb
      | _, _ => g
  | GraphOp.optClone a b =>
      match g.findNode a, g.findNode b with
      | some na, some nb => (g.OptionallyCloneWithEdge na nb).1
      | _, _ => g

def IR.applyOps (g : IR) (ops : List GraphOp) : IR :=
  ops.foldl IR.applyOp g

/-- Well-formedness of a graph state: the id counter strictly dominates every
node id, node ids are unique, every node's graph back-pointer names this
graph, and the edge set is duplicate-free with endpoints in the node map. -/
def IR.WF (g : IR) : Prop :=
  (∀ n ∈ g.nodes, n.id < g.id_node_counter) ∧
  g.nodeIds.Nodup ∧
  (∀ n ∈ g.nodes, n.graphGid = g.gid) ∧
  g.edges.Nodup ∧
  (∀ e ∈ g.edges, g.hasNodeId e.1 = true ∧ g.hasNodeId e.2 = true)

instance (g : IR) : Decidable g.WF := by
  unfold IR.WF
  infer_instance

/-! ## Plan-operator serialization (`OperatorIR::ToProto`)

`GroupByIR::ToProto`, `MetadataResolverIR::ToProto` and
`TabletSourceGroupIR::ToProto` are defined inline in the header and
unconditionally return `error::Unimplemented`.  The remaining operator
variants declare `ToProto` overrides whose bodies are in `ir_nodes.cc`
(not in the source tree); per the spec, "each Operator variant contributes
its own plan-operator encoding", modelled as a successful encoding. -/

/-- Abstract `planpb::Operator` encoding produced by a successful ToProto. -/
inductive PlanOperator
  | enc (t : IRNodeType) (payload : NodePayload)
  deriving DecidableEq, Repr

/-- Per-variant `ToProto` on an operator node of type `t` with per-variant
state `p`; `debugStr` stands for the node's `DebugString()`. -/
def OperatorToProto (t : IRNodeType) (p : NodePayload) (debugStr : String) :
    Except Status PlanOperator :=
  match t with
  | kMetadataResolver =>
      Except.error (errorUnimplemented
        "Calling ToProto on $0, which lacks a Protobuf representation."
        [TypeString kMetadataResolver])
  | kGroupBy =>
      Except.error (errorUnimplemented "ToProto not implemented." [])
  | kTabletSourceGroup =>
      Except.error (errorUnimplemented
        "$0::ToProto not implemented because no use found for it yet."
        [debugStr])
  | t => Except.ok (PlanOperator.enc t p)

/-- Whether a ToProto outcome is an `Unimplemented` error (no plan
encoding produced). -/
def isUnimplementedErr : Except Status PlanOperator → Bool
  | Except.error s => s.code = StatusCode.unimplemented
  | Except.ok _ => false

/-! ## The `Time` literal (`class TimeIR`) -/

/-- `TimeIR`: stores the time value as a 64-bit integer (`int64_t val_`,
nanoseconds since epoch). -/
structure TimeIR where
  id : Int
  val_ : Int
  deriving DecidableEq, Repr

/-- `TimeIR::Init(int64_t val)` stores the nanosecond value. -/
def TimeIR.Init (id v : Int) : TimeIR := ⟨id, v⟩

/-- `bool TimeIR::val() const { return val_ != 0; }` — note the `bool`
return type. -/
def TimeIR.val (t : TimeIR) : Bool := t.val_ != 0

/-! ## Metadata column formatting (`class MetadataProperty`) -/

/-- Modelled from the spec: the orchestrator metadata-type enumeration
(`metadatapb::MetadataType`, a generated protobuf that is not in the source
tree).  Constructors follow the metadata column families the spec names
(unique process identifier, pod/service/container/namespace identity). -/
inductive MetadataType
  | UPID
  | POD_ID
  | POD_NAME
  | SERVICE_ID
  | SERVICE_NAME
  | CONTAINER_ID
  | NAMESPACE
  deriving DecidableEq, Repr

/-- Modelled from the spec: the generated `MetadataType_Name` returns the
enumerator's declared (upper-case) name. -/
def MetadataType_Name : MetadataType → String
  | MetadataType.UPID => "UPID"
  | MetadataType.POD_ID => "POD_ID"
  | MetadataType.POD_NAME => "POD_NAME"
  | MetadataType.SERVICE_ID => "SERVICE_ID"
  | MetadataType.SERVICE_NAME => "SERVICE_NAME"
  | MetadataType.CONTAINER_ID => "CONTAINER_ID"
  | MetadataType.NAMESPACE => "NAMESPACE"

/-- `MetadataProperty::kMetadataColumnPrefix`. -/
def kMetadataColumnPre : String := "_attr_"

/-- `MetadataProperty::kUniquePIDColumn`. -/
def kUniquePIDColumn : String := "upid"

/-- `FormatMetadataColumn(std::string_view)`:
`absl::Substitute("$0$1", kMetadataColumnPrefix, col_name)`. -/
def FormatMetadataColumnStr (col_name : String) : String :=
  substituteStr "$0$1" [kMetadataColumnPre, col_name]

/-- `MetadataProperty::GetMetadataString`. -/
def GetMetadataString (t : MetadataType) : String :=
  if t = MetadataType.UPID then kUniquePIDColumn
  else asciiStrToLower (MetadataType_Name t)

/-- `FormatMetadataColumn(metadatapb::MetadataType)`. -/
def FormatMetadataColumn (t : MetadataType) : String :=
  if t = MetadataType.UPID then kUniquePIDColumn
  else FormatMetadataColumnStr (GetMetadataString t)

/-! ## Join type setters (`class JoinIR`) -/

inductive JoinType
  | kLeft
  | kRight
  | kOuter
  | kInner
  deriving DecidableEq, Repr

/-- The `JoinIR` state the two `SetJoinType` overloads touch:
`join_type_` (indeterminate until first set, modelled as `none`) and
`specified_as_right_` (`= false` member initializer). -/
structure JoinState where
  join_type_ : Option JoinType
  specified_as_right_ : Bool
  deriving DecidableEq, Repr

/-- A freshly constructed `JoinIR`. -/
def JoinState.fresh : JoinState := ⟨none, false⟩

/-- Modelled from the spec: `GetJoinEnum`'s body is in `ir_nodes.cc` (not in
the source tree); the spec lists the join kinds left/right/outer/inner, so
the parser maps exactly those four strings. -/
def GetJoinEnum (s : String) : Except Status JoinType :=
  if s = "left" then Except.ok JoinType.kLeft
  else if s = "right" then Except.ok JoinType.kRight
  else if s = "outer" then Except.ok JoinType.kOuter
  else if s = "inner" then Except.ok JoinType.kInner
  else Except.error (errorInvalidArgument "'$0' join type not supported." [s])

/-- `Status SetJoinType(JoinType join_type)`: assigns `join_type_` only. -/
def SetJoinTypeEnum (st : JoinState) (jt : JoinType) : JoinState :=
  { st with join_type_ := some jt }

/-- `Status SetJoinType(const std::string& join_type)`: parses the string,
assigns `join_type_`, and sets `specified_as_right_` when the parsed type is
`kRight`. An unparsable string returns early, leaving the state unchanged. -/
def SetJoinTypeStr (st : JoinState) (s : String) : JoinState :=
  match GetJoinEnum s with
  | Except.error _ => st
  | Except.ok jt =>
      { join_type_ := some jt,
        specified_as_right_ :=
          if jt = JoinType.kRight then true else st.specified_as_right_ }

/-- `specified_as_right()` accessor. -/
def JoinState.specified_as_right (st : JoinState) : Bool :=
  st.specified_as_right_

/-- The two type-setting paths a caller can invoke on a `JoinIR`. -/
inductive JoinOp
  | byEnum (jt : JoinType)
  | byStr (s : String)
  deriving DecidableEq, Repr

def JoinState.applyOp (st : JoinState) : JoinOp → JoinState
  | JoinOp.byEnum jt => SetJoinTypeEnum st jt
  | JoinOp.byStr s => SetJoinTypeStr st s

def JoinState.applyOps (st : JoinState) (ops : List JoinOp) : JoinState :=
  ops.foldl JoinState.applyOp st

/-! ## Cron Script Store service (Go package `cronscript`) -/

/-- A cron script record: its proto UUID field and an opaque body. -/
structure CronScript where
  ID : Option String
  body : Int
  deriving DecidableEq, Repr

/-- Modelled from the spec: `utils.UUIDFromProtoOrNil` (not in the source
tree) renders the proto UUID as its string form, yielding the nil UUID when
the field is absent or invalid. -/
def UUIDFromProtoOrNil : Option String → String
  | some s => s
  | none => "00000000-0000-0000-0000-000000000000"

/-- The string key `utils.UUIDFromProtoOrNil(s.ID).String()` used for the
`GetScripts` response map. -/
def uuidKey (s : CronScript) : String := UUIDFromProtoOrNil s.ID

/-- The injected persistence interface (`type Store interface`).  Each
operation's outcome is the store's answer; `none`/`Except.ok` means success. -/
structure Store where
  GetCronScripts : Except String (List CronScript)
  UpsertCronScript : CronScript → Option String
  DeleteCronScript : String → Option String
  SetCronScripts : List CronScript → Option String

/-- One `scMap[id.String()] = s` assignment on a Go map. -/
def scMapInsert (m : String → Option CronScript) (s : CronScript) :
    String → Option CronScript :=
  fun k => if k = uuidKey s then some s else m k

/-- Builds the `GetScripts` response map by iterating over the store's
scripts in order. -/
def mkScriptsMapFrom (m : String → Option CronScript) :
    List CronScript → (String → Option CronScript)
  | [] => m
  | s :: rest => mkScriptsMapFrom (scMapInsert m s) rest

def mkScriptsMap (scripts : List CronScript) : String → Option CronScript :=
  mkScriptsMapFrom (fun _ => none) scripts

structure GetScriptsResponse where
  Scripts : String → Option CronScript

/-- `Server.GetScripts`: on store error, `(nil, err)`; otherwise the
UUID-string → script map. -/
def Server.GetScripts (ds : Store) :
    Option GetScriptsResponse × Option String :=
  match ds.GetCronScripts with
  | Except.error e => (none, some e)
  | Except.ok scripts => (some ⟨mkScriptsMap scripts⟩, none)

/-- `Server.AddOrUpdateScript`: upsert by the script's embedded id;
`(nil, err)` on store error, empty acknowledgement otherwise. -/
def Server.AddOrUpdateScript (ds : Store) (script : CronScript) :
    Option Unit × Option String :=
  match ds.UpsertCronScript script with
  | some e => (none, some e)
  | none => (some (), none)

/-- `Server.DeleteScript`. -/
def Server.DeleteScript (ds : Store) (scriptID : Option String) :
    Option Unit × Option String :=
  match ds.DeleteCronScript (UUIDFromProtoOrNil scriptID) with
  | some e => (none, some e)
  | none => (some (), none)

/-- `Server.SetScripts`: rebuilds the request's script list by appending and
returns `(&SetScriptsResponse{}, s.ds.SetCronScripts(scripts))` — note the
response value is produced even when the store errors. -/
def Server.SetScripts (ds : Store) (reqScripts : List CronScript) :
    Option Unit × Option String :=
  (some (), ds.SetCronScripts (reqScripts.foldl (fun acc v => acc ++ [v]) []))

/-! ## Deployment configuration generator (Go `package main`) -/

/-- The merged flag/environment values `viper` reads. -/
structure Flags where
  build_dir : String
  staging : Bool
  prod : Bool
  deriving DecidableEq, Repr

/-- Observable side effects of a generator run. -/
inductive Effect
  | mkdirAll (path : String)
  | wroteFile (path : String)
  | spawned (cmd : String)
  deriving DecidableEq, Repr

/-- A file-system tree walked by `filepath.Walk`. -/
inductive FSTree
  | file (path : String)
  | dir (dname : String) (children : List FSTree)

/-- `filepath.Ext`: the suffix of the last path element starting at its final
dot (empty when there is no dot). -/
def extOf (p : String) : String :=
  let base := (p.data.reverse.takeWhile (fun c => c ≠ '/')).reverse
  if base.contains '.' then
    ⟨'.' :: (base.reverse.takeWhile (fun c => c ≠ '.')).reverse⟩
  else ""

/-- `path.Dir`-like: everything before the final `/` (or `.` if none). -/
def dirOf (p : String) : String :=
  let pre := p.data.reverse.dropWhile (fun c => c ≠ '/')
  match pre with
  | [] => "."
  | _ :: rest => ⟨rest.reverse⟩

/-- `path.Join` of two segments. -/
def pathJoin (a b : String) : String :=
  if a = "" then b else a ++ "/" ++ b

mutual

/-- The `filepath.Walk` callback of `findTemplateFiles`: collects files whose
extension is `.tmpl`, skipping any directory literally named `vendor`
(`filepath.SkipDir`). -/
def collectTmpl : FSTree → List String
  | FSTree.file p => if extOf p = ".tmpl" then [p] else []
  | FSTree.dir dname children =>
      if dname = "vendor" then [] else collectTmplList children

def collectTmplList : List FSTree → List String
  | [] => []
  | t :: ts => collectTmpl t ++ collectTmplList ts

end

/-- `findTemplateFiles`: walks each search path; a walk error is reported
with `log.WithError(err).Errorf(...)` — an error-level log — and the loop
continues with the next path.  Returns the collected template files and the
error-log lines. -/
def findTemplateFiles :
    List (String × Except String FSTree) → List String × List String
  | [] => ([], [])
  | (curPath, Except.error e) :: rest =>
      let r := findTemplateFiles rest
      (r.1,
       ("Error on findTemplateFiles while searching " ++ curPath ++ ": " ++ e)
         :: r.2)
  | (_, Except.ok tree) :: rest =>
      let r := findTemplateFiles rest
      (collectTmpl tree ++ r.1, r.2)

/-- The text-proto service config (`pb.ServiceConfig`); only the deployment
name is consumed by the generator. -/
structure ServiceConfig where
  Deployment : String
  deriving DecidableEq, Repr

/-- `serviceConfigExt`. -/
structure ServiceConfigExt where
  config : ServiceConfig
  BuildDir : String
  deriving DecidableEq, Repr

/-- The environment a generator run interacts with: each field is the answer
of one external call. -/
structure DeployEnv where
  workspaceRoot : Except String String
  walk : String → Except String FSTree
  readFile : String → Except String String
  unmarshalText : String → Except String ServiceConfig
  stdin : List (Except String String)
  createFile : String → Option String
  executeTemplate : String → Option String
  closeFile : String → Option String
  fileExists : String → Bool
  runCmd : String → Option String

/-- `parseArgs`: `--build_dir` required, `--prod`/`--staging` mutually
exclusive; each violation is `log.Fatal` (process exit). -/
def parseArgs (f : Flags) : Except String Unit :=
  if f.build_dir = "" then
    Except.error "Flag --build_dir is required. Please specify build_dir as an argument. Refer to the usage menu (-h) for more help."
  else if f.prod && f.staging then
    Except.error "Flags --prod and --staging can only be used exclusively. Please remove one to specify the environment"
  else Except.ok ()

/-- The `getConfirmationForPush` prompting loop: accepts case-insensitive
y/n, re-prompts on anything else; a stdin read failure is fatal.  Exhausting
the modelled input list behaves as a read failure (the Go loop would block
for more input). -/
def confirmLoop : List (Except String String) → Except String Bool
  | [] => Except.error "Reading StdIn failed"
  | Except.error _ :: _ => Except.error "Reading StdIn failed"
  | Except.ok ans :: rest =>
      let confirmation := asciiStrToLower ans
      if confirmation = "y" then Except.ok true
      else if confirmation = "n" then Except.ok false
      else confirmLoop rest

/-- `getConfirmationForPush`: immediate `true` for dev, otherwise the
confirmation loop. -/
def getConfirmationForPush (environ : String)
    (stdin : List (Except String String)) : Except String Bool :=
  if environ = "dev" then Except.ok true else confirmLoop stdin

/-- `checkEnvironment`: derives the environment from the flags and runs the
confirmation; `false` means a clean (non-error) abort. -/
def checkEnvironment (f : Flags) (stdin : List (Except String String)) :
    Except String Bool :=
  let environ := if f.prod then "prod"
                 else if f.staging then "staging" else "dev"
  getConfirmationForPush environ stdin

/-- `loadConfig`: workspace-root lookup, config read, and text-proto parse
are each fatal on failure; the build dir is made workspace-relative via
`strings.Replace`. -/
def loadConfig (env : DeployEnv) (configFile buildDir : String) :
    Except String ServiceConfigExt :=
  match env.workspaceRoot with
  | Except.error _ => Except.error "WORKSPACE directory could not be found"
  | Except.ok totPath =>
      let localBuildDir := replaceAll buildDir totPath ""
      match env.readFile configFile with
      | Except.error _ => Except.error ("Cannot read config file: " ++ configFile)
      | Except.ok configBuf =>
          match env.unmarshalText configBuf with
          | Except.error _ => Except.error "Cannot Unmarshal protobuf."
          | Except.ok pbServiceConfig =>
              Except.ok ⟨pbServiceConfig, localBuildDir⟩

/-- The output path one template renders to:
`<build_dir>/<template path minus extension>_<deployment>.yaml`, made
workspace-relative with `strings.Replace`. -/
def yamlOutputFileFor (buildDir totPath : String) (config : ServiceConfigExt)
    (templateFile : String) : String :=
  let ext := extOf templateFile
  let yamlOutputFile0 :=
    (templateFile.take (templateFile.length - ext.length)) ++ "_" ++
      config.config.Deployment ++ ".yaml"
  pathJoin buildDir (replaceAll yamlOutputFile0 totPath "")

/-- One iteration of `generateServiceConfigs`: derives the output path,
creates its directory (`os.MkdirAll`, error ignored), then creates, renders
and closes the output file — each of those three failures is fatal. -/
def genOneConfig (env : DeployEnv) (buildDir totPath : String)
    (config : ServiceConfigExt) (templateFile : String) :
    List Effect × Except String Unit :=
  let yamlOutputFile := yamlOutputFileFor buildDir totPath config templateFile
  let outputPath := dirOf yamlOutputFile
  match env.createFile yamlOutputFile with
  | some _ =>
      ([Effect.mkdirAll outputPath],
       Except.error ("Could not create " ++ yamlOutputFile))
  | none =>
      match env.executeTemplate templateFile with
      | some _ =>
          ([Effect.mkdirAll outputPath],
           Except.error "Could not create service yaml for skaffold (template error)")
      | none =>
          match env.closeFile yamlOutputFile with
          | some _ =>
              ([Effect.mkdirAll outputPath, Effect.wroteFile yamlOutputFile],
               Except.error ("Cannot close output file: " ++ yamlOutputFile))
          | none =>
              ([Effect.mkdirAll outputPath, Effect.wroteFile yamlOutputFile],
               Except.ok ())

/-- `generateServiceConfigs` over the discovered template files; the first
fatal failure terminates the run. -/
def generateServiceConfigs (env : DeployEnv) (buildDir totPath : String)
    (config : ServiceConfigExt) :
    List String → List Effect × Except String Unit
  | [] => ([], Except.ok ())
  | f :: rest =>
      let r := genOneConfig env buildDir totPath config f
      match r.2 with
      | Except.error m => (r.1, Except.error m)
      | Except.ok () =>
          let rr := generateServiceConfigs env buildDir totPath config rest
          (r.1 ++ rr.1, rr.2)

/-- `startSkaffold`: picks the sub-command and environment, checks the
generated manifest exists, and runs the external tool; a missing manifest or
subprocess failure is fatal. -/
def startSkaffold (env : DeployEnv) (f : Flags) (buildDir : String) :
    List Effect × Except String Unit :=
  let skaffoldSubCmd := if f.prod || f.staging then "run" else "dev"
  let environ := if f.prod then "prod" else "dev"
  let skaffoldFile :=
    pathJoin buildDir ("skaffold/skaffold_" ++ environ ++ ".yaml")
  if env.fileExists skaffoldFile then
    let skaffoldCmd := "skaffold " ++ skaffoldSubCmd ++ " -f " ++ skaffoldFile
    match env.runCmd skaffoldCmd with
    | some _ =>
        ([Effect.spawned skaffoldCmd],
         Except.error ("Error starting skaffold with cmd \"" ++ skaffoldCmd ++ "\"."))
    | none => ([Effect.spawned skaffoldCmd], Except.ok ())
  else
    ([], Except.error ("Can't find skaffold file " ++ skaffoldFile ++ ". Skaffold cannot run"))

/-- `main` of the deployment generator: argument parsing, workspace lookup,
environment confirmation, build-dir creation, template discovery, config
load, rendering, and the skaffold launch, in source order.  The result pairs
the run outcome (`Except.error` = `log.Fatal`) with the emitted effects. -/
def mainDeploy (f : Flags) (env : DeployEnv) :
    Except String Unit × List Effect :=
  match parseArgs f with
  | Except.error m => (Except.error m, [])
  | Except.ok () =>
      let buildDir := f.build_dir
      match env.workspaceRoot with
      | Except.error _ =>
          (Except.error "WORKSPACE directory could not be found", [])
      | Except.ok totPath =>
          match checkEnvironment f env.stdin with
          | Except.error m => (Except.error m, [])
          | Except.ok false => (Except.ok (), [])
          | Except.ok true =>
              let dirsToTemplate :=
                [pathJoin totPath "skaffold", pathJoin totPath "services"]
              let scan := findTemplateFiles
                (dirsToTemplate.map (fun d => (d, env.walk d)))
              let configEnviron := if f.prod then "prod" else "dev"
              let configFile := pathJoin totPath
                ("templates/skaffold/skaffold_service_config_" ++
                  configEnviron ++ ".pbtxt")
              match loadConfig env configFile buildDir with
              | Except.error m =>
                  (Except.error m, [Effect.mkdirAll buildDir])
              | Except.ok config =>
                  let gen := generateServiceConfigs env buildDir totPath
                    config scan.1
                  match gen.2 with
                  | Except.error m =>
                      (Except.error m, Effect.mkdirAll buildDir :: gen.1)
                  | Except.ok () =>
                      let sk := startSkaffold env f buildDir
                      (sk.2, Effect.mkdirAll buildDir :: (gen.1 ++ sk.1))

/-! ## Concrete fixtures used by witness and counterexample theorems -/

/-- A small graph: a Map operator (id 0), a Column (id 1), one edge 0→1. -/
def demoGraph : IR :=
  (IR.empty 7).applyOps
    [GraphOp.makeAuto kMap ⟨0⟩, GraphOp.makeAuto kColumn ⟨5⟩,
     GraphOp.addEdge 0 1]

def demoParent : IRNode := ⟨0, kMap, ⟨0⟩, 7⟩

def demoChild : IRNode := ⟨1, kColumn, ⟨5⟩, 7⟩

/-- A node owned by a graph whose address is `1` (an `Int` literal, id 5). -/
def demoNode5 : IRNode := ⟨5, kInt, ⟨42⟩, 1⟩

def demoScript : CronScript := ⟨some "u1", 3⟩

/-- A store whose `SetCronScripts` fails. -/
def demoStoreErr : Store :=
  ⟨Except.ok [], fun _ => none, fun _ => none, fun _ => some "boom"⟩

/-- A store holding exactly `demoScript`, all mutations succeeding. -/
def demoStoreOk : Store :=
  ⟨Except.ok [demoScript], fun _ => none, fun _ => none, fun _ => none⟩

/-- A services directory holding one template, one plain file, and a
`vendor` subtree that must be skipped. -/
def demoTree : FSTree :=
  FSTree.dir "services"
    [FSTree.file "svc/a.tmpl", FSTree.file "svc/b.txt",
     FSTree.dir "vendor" [FSTree.file "v/c.tmpl"]]

/-- A deployment environment where walking the skaffold directory fails with
an I/O error but everything else succeeds. -/
def demoDeployEnv : DeployEnv :=
  { workspaceRoot := Except.ok "/ws"
    walk := fun d => if d = "/ws/services" then Except.ok demoTree
                     else Except.error "EACCES"
    readFile := fun _ => Except.ok "cfg"
    unmarshalText := fun _ => Except.ok ⟨"dev"⟩
    stdin := []
    createFile := fun _ => none
    executeTemplate := fun _ => none
    closeFile := fun _ => none
    fileExists := fun _ => true
    runCmd := fun _ => none }

/-- A deployment environment where every external call fails. -/
def demoFailEnv : DeployEnv :=
  { workspaceRoot := Except.error "no ws"
    walk := fun _ => Except.error "x"
    readFile := fun _ => Except.error "x"
    unmarshalText := fun _ => Except.error "x"
    stdin := []
    createFile := fun _ => some "EIO"
    executeTemplate := fun _ => some "bad"
    closeFile := fun _ => some "x"
    fileExists := fun _ => false
    runCmd := fun _ => some "exit 1" }

def demoFlags : Flags := ⟨"/b", false, false⟩

/-- A deployment environment where everything succeeds up to the skaffold
subprocess, which exits with an error. -/
def demoRunFailEnv : DeployEnv :=
  { workspaceRoot := Except.ok "/ws"
    walk := fun _ => Except.error "x"
    readFile := fun _ => Except.ok "cfg"
    unmarshalText := fun _ => Except.ok ⟨"dev"⟩
    stdin := []
    createFile := fun _ => none
    executeTemplate := fun _ => none
    closeFile := fun _ => none
    fileExists := fun _ => true
    runCmd := fun _ => some "exit 1" }

/-! ### Basic lemmas about the graph operations -/

theorem hasNodeId_iff {g : IR} {id : Int} :
    g.hasNodeId id = true ↔ id ∈ g.nodeIds := by
  simp only [IR.hasNodeId]
  exact List.elem_iff

theorem hasNodeId_iff_exists {g : IR} {id : Int} :
    g.hasNodeId id = true ↔ ∃ n ∈ g.nodes, n.id = id := by
  rw [hasNodeId_iff]
  simp only [IR.nodeIds, List.mem_map]

theorem HasEdge_iff {g : IR} {a b : IRNode} :
    g.HasEdge a b = true ↔ (a.id, b.id) ∈ g.edges := by
  simp only [IR.HasEdge]
  exact List.elem_iff

/-- In a well-formed graph the id counter is not yet used by any node. -/
theorem counter_fresh {g : IR} (h : g.WF) :
    g.hasNodeId g.id_node_counter = false := by
  by_contra hc
  rw [Bool.not_eq_false, hasNodeId_iff_exists] at hc
  obtain ⟨n, hn, hid⟩ := hc
  exact absurd (hid ▸ h.1 n hn) (lt_irrefl _)

theorem MakeNode_counter (g : IR) (t : IRNodeType) (p : NodePayload)
    (id : Int) :
    ((g.MakeNode t p id).1).id_node_counter = max (id + 1) g.id_node_counter :=
  rfl

theorem MakeNode_gid (g : IR) (t : IRNodeType) (p : NodePayload) (id : Int) :
    ((g.MakeNode t p id).1).gid = g.gid := rfl

theorem MakeNode_edges (g : IR) (t : IRNodeType) (p : NodePayload)
    (id : Int) : ((g.MakeNode t p id).1).edges = g.edges := rfl

theorem AddEdge_counter (g : IR) (a b : IRNode) :
    (g.AddEdge a b).id_node_counter = g.id_node_counter := by
  unfold IR.AddEdge; split <;> rfl

theorem AddEdge_nodes (g : IR) (a b : IRNode) :
    (g.AddEdge a b).nodes = g.nodes := by
  unfold IR.AddEdge; split <;> rfl

theorem AddEdge_gid (g : IR) (a b : IRNode) : (g.AddEdge a b).gid = g.gid := by
  unfold IR.AddEdge; split <;> rfl

/-- `MakeNode` preserves well-formedness (whatever id is supplied). -/
theorem WF_MakeNode {g : IR} (h : g.WF) (t : IRNodeType) (p : NodePayload)
    (id : Int) : ((g.MakeNode t p id).1).WF := by
  obtain ⟨hlt, hnd, hgid, hend, hedge⟩ := h
  unfold IR.MakeNode
  by_cases hid : g.hasNodeId id = true
  · simp only [hid, if_true]
    refine ⟨?_, hnd, hgid, hend, ?_⟩
    · intro n hn
      exact lt_of_lt_of_le (hlt n hn) (le_max_right _ _)
    · intro e he
      exact hedge e he
  · simp only [hid, if_false]
    have hidmem : id ∉ g.nodeIds := fun hm =>
      hid (hasNodeId_iff.mpr hm)
    refine ⟨?_, ?_, ?_, hend, ?_⟩
    · intro n hn
      rcases List.mem_append.mp hn with hn | hn
      · exact lt_of_lt_of_le (hlt n hn) (le_max_right _ _)
      · simp only [List.mem_singleton] at hn
        subst hn
        exact lt_of_lt_of_le (lt_add_one id) (le_max_left _ _)
    · show (((g.nodes ++ [(⟨id, t, p, g.gid⟩ : IRNode)]).map IRNode.id)).Nodup
      rw [List.map_append]
      simp only [List.map_cons, List.map_nil]
      refine List.Nodup.append hnd (List.nodup_singleton _) ?_
      intro a ha hb
      simp only [List.mem_singleton] at hb
      exact hidmem (hb ▸ ha)
    · intro n hn
      rcases List.mem_append.mp hn with hn | hn
      · exact hgid n hn
      · simp only [List.mem_singleton] at hn
        subst hn
        rfl
    · intro e he
      obtain ⟨h1, h2⟩ := hedge e he
      rw [hasNodeId_iff] at h1 h2
      constructor
      · rw [hasNodeId_iff]
        show e.1 ∈ (g.nodes ++ [(⟨id, t, p, g.gid⟩ : IRNode)]).map IRNode.id
        rw [List.map_append]
        exact List.mem_append_left _ h1
      · rw [hasNodeId_iff]
        show e.2 ∈ (g.nodes ++ [(⟨id, t, p, g.gid⟩ : IRNode)]).map IRNode.id
        rw [List.map_append]
        exact List.mem_append_left _ h2

/-- `CopyNode` preserves well-formedness. -/
theorem WF_CopyNode {g : IR} (h : g.WF) (s : IRNode) :
    ((g.CopyNode s).1).WF := by
  unfold IR.CopyNode
  exact WF_MakeNode h _ _ _

/-- What a same-graph copy computes: the clone carries the child's type and
payload under the fresh id `id_node_counter`. -/
theorem CopyNode_sameGraph {g : IR} (h : g.WF) {child : IRNode}
    (hc : child ∈ g.nodes) :
    g.CopyNode child =
      (⟨g.gid,
        g.nodes ++ [(⟨g.id_node_counter, child.ntype, child.payload, g.gid⟩ : IRNode)],
        g.edges, g.id_node_counter + 1⟩,
       ⟨g.id_node_counter, child.ntype, child.payload, g.gid⟩) := by
  have hgid : child.graphGid = g.gid := h.2.2.1 child hc
  have hfresh : g.hasNodeId g.id_node_counter = false := counter_fresh h
  unfold IR.CopyNode IR.MakeNode
  rw [hgid]
  simp [hfresh]

/-- `AddEdge` between two nodes of the graph preserves well-formedness. -/
theorem WF_AddEdge {g : IR} (h : g.WF) {a b : IRNode} (ha : a ∈ g.nodes)
    (hb : b ∈ g.nodes) : (g.AddEdge a b).WF := by
  obtain ⟨hlt, hnd, hgid, hend, hedge⟩ := h
  unfold IR.AddEdge
  by_cases he : g.HasEdge a b = true
  · simpa [he] using ⟨hlt, hnd, hgid, hend, hedge⟩
  · simp only [he, if_false]
    have hmem : (a.id, b.id) ∉ g.edges := fun hm => he (HasEdge_iff.mpr hm)
    refine ⟨hlt, hnd, hgid, ?_, ?_⟩
    · refine List.Nodup.append hend (List.nodup_singleton _) ?_
      intro x hx hxab
      simp only [List.mem_singleton] at hxab
      exact hmem (hxab ▸ hx)
    · intro e hee
      rcases List.mem_append.mp hee with hee | hee
      · exact hedge e hee
      · simp only [List.mem_singleton] at hee
        subst hee
        exact ⟨hasNodeId_iff_exists.mpr ⟨a, ha, rfl⟩,
          hasNodeId_iff_exists.mpr ⟨b, hb, rfl⟩⟩

/-- What the duplicate-safe attach computes when the edge already exists:
the child is cloned under the fresh id and a parent→clone edge is added,
with the original nodes and the original edge kept verbatim. -/
theorem OptionallyCloneWithEdge_spec {g : IR} (h : g.WF)
    {parent child : IRNode} (hc : child ∈ g.nodes)
    (he : g.HasEdge parent child = true) :
    g.OptionallyCloneWithEdge parent child =
      (⟨g.gid,
        g.nodes ++ [(⟨g.id_node_counter, child.ntype, child.payload, g.gid⟩ : IRNode)],
        g.edges ++ [(parent.id, g.id_node_counter)],
        g.id_node_counter + 1⟩,
       ⟨g.id_node_counter, child.ntype, child.payload, g.gid⟩) := by
  have hcn := CopyNode_sameGraph h hc
  have hfresh : g.hasNodeId g.id_node_counter = false := counter_fresh h
  have hnoedge : ((g.CopyNode child).1).HasEdge parent (g.CopyNode child).2
      = false := by
    rw [hcn]
    by_contra hcontra
    rw [Bool.not_eq_false, HasEdge_iff] at hcontra
    have := (h.2.2.2.2 _ hcontra).2
    rw [counter_fresh h] at this
    exact Bool.false_ne_true this
  unfold IR.OptionallyCloneWithEdge
  rw [if_pos he]
  unfold IR.AddEdge
  rw [if_neg (by rw [hnoedge]; exact Bool.false_ne_true)]
  rw [hcn]

/-- The duplicate-safe attach preserves well-formedness. -/
theorem WF_OptionallyCloneWithEdge {g : IR} (h : g.WF)
    {parent child : IRNode} (hp : parent ∈ g.nodes) (hc : child ∈ g.nodes) :
    ((g.OptionallyCloneWithEdge parent child).1).WF := by
  by_cases he : g.HasEdge parent child = true
  · have hwf1 : ((g.CopyNode child).1).WF := WF_CopyNode h child
    have hmp : parent ∈ ((g.CopyNode child).1).nodes := by
      rw [CopyNode_sameGraph h hc]
      exact List.mem_append_left _ hp
    have hmc : (g.CopyNode child).2 ∈ ((g.CopyNode child).1).nodes := by
      rw [CopyNode_sameGraph h hc]
      exact List.mem_append_right _ (List.mem_singleton_self _)
    unfold IR.OptionallyCloneWithEdge
    rw [if_pos he]
    exact WF_AddEdge hwf1 hmp hmc
  · unfold IR.OptionallyCloneWithEdge
    rw [if_neg he]
    exact WF_AddEdge h hp hc

/-- A freshly constructed graph is well-formed. -/
theorem WF_empty (gid : Nat) : (IR.empty gid).WF := by
  refine ⟨?_, ?_, ?_, ?_, ?_⟩ <;> simp [IR.empty, IR.nodeIds]

/-- Every graph operation preserves well-formedness. -/
theorem WF_applyOp {g : IR} (h : g.WF) (op : GraphOp) : (g.applyOp op).WF := by
  cases op with
  | makeAuto t p => exact WF_MakeNode h t p _
  | makeWithId t p id => exact WF_MakeNode h t p id
  | addEdge a b =>
      simp only [IR.applyOp]
      cases hfa : g.findNode a with
      | none => exact h
      | some na =>
          cases hfb : g.findNode b with
          | none => exact h
          | some nb =>
              exact WF_AddEdge h (List.mem_of_find?_eq_some hfa)
                (List.mem_of_find?_eq_some hfb)
  | optClone a b =>
      simp only [IR.applyOp]
      cases hfa : g.findNode a with
      | none => exact h
      | some na =>
          cases hfb : g.findNode b with
          | none => exact h
          | some nb =>
              exact WF_OptionallyCloneWithEdge h
                (List.mem_of_find?_eq_some hfa)
                (List.mem_of_find?_eq_some hfb)

/-- Well-formedness holds along every operation sequence. -/
theorem WF_applyOps {g : IR} (h : g.WF) (ops : List GraphOp) :
    (g.applyOps ops).WF := by
  induction ops generalizing g with
  | nil => exact h
  | cons op rest ih => exact ih (WF_applyOp h op)

/-- The node-id counter does not decrease across any single operation. -/
theorem applyOp_counter_mono (g : IR) (op : GraphOp) :
    g.id_node_counter ≤ (g.applyOp op).id_node_counter := by
  cases op with
  | makeAuto t p =>
      show g.id_node_counter ≤ ((g.MakeNodeAuto t p).1).id_node_counter
      unfold IR.MakeNodeAuto
      rw [MakeNode_counter]
      exact le_max_right _ _
  | makeWithId t p id =>
      show g.id_node_counter ≤ ((g.MakeNode t p id).1).id_node_counter
      rw [MakeNode_counter]
      exact le_max_right _ _
  | addEdge a b =>
      simp only [IR.applyOp]
      cases g.findNode a with
      | none => exact le_refl _
      | some na =>
          cases g.findNode b with
          | none => exact le_refl _
          | some nb => rw [AddEdge_counter]
  | optClone a b =>
      simp only [IR.applyOp]
      cases g.findNode a with
      | none => exact le_refl _
      | some na =>
          cases g.findNode b with
          | none => exact le_refl _
          | some nb =>
              show g.id_node_counter ≤
                ((g.OptionallyCloneWithEdge na nb).1).id_node_counter
              unfold IR.OptionallyCloneWithEdge
              by_cases he : g.HasEdge na nb = true
              · rw [if_pos he]
                show g.id_node_counter ≤
                  (((g.CopyNode nb).1).AddEdge na (g.CopyNode nb).2).id_node_counter
                rw [AddEdge_counter]
                unfold IR.CopyNode
                rw [MakeNode_counter]
                exact le_max_right _ _
              · rw [if_neg he]
                show g.id_node_counter ≤
                  ((g.AddEdge na nb)).id_node_counter
                rw [AddEdge_counter]

/-- The node-id counter does not decrease across any operation sequence. -/
theorem applyOps_counter_mono (g : IR) (ops : List GraphOp) :
    g.id_node_counter ≤ (g.applyOps ops).id_node_counter := by
  induction ops generalizing g with
  | nil => exact le_refl _
  | cons op rest ih =>
      exact le_trans (applyOp_counter_mono g op) (ih (g.applyOp op))

/-! ### Lemmas about the Join setters -/

/-- How one setter call changes `specified_as_right_`. -/
theorem joinFlag_applyOp (st : JoinState) (op : JoinOp) :
    (st.applyOp op).specified_as_right_ = true ↔
      st.specified_as_right_ = true ∨
        ∃ s, op = JoinOp.byStr s ∧ GetJoinEnum s = Except.ok JoinType.kRight := by
  cases op with
  | byEnum jt => simp [JoinState.applyOp, SetJoinTypeEnum]
  | byStr s =>
      simp only [JoinState.applyOp, SetJoinTypeStr]
      rcases h : GetJoinEnum s with e | jt
      · simp only [JoinOp.byStr.injEq]
        constructor
        · exact fun hf => Or.inl hf
        · rintro (hf | ⟨s', hs', hp⟩)
          · exact hf
          · rw [← hs'] at hp
            rw [h] at hp
            cases hp
      · by_cases hr : jt = JoinType.kRight
        · subst hr
          simp only [if_pos rfl]
          constructor
          · exact fun _ => Or.inr ⟨s, rfl, h⟩
          · exact fun _ => rfl
        · simp only [if_neg hr, JoinOp.byStr.injEq]
          constructor
          · exact fun hf => Or.inl hf
          · rintro (hf | ⟨s', hs', hp⟩)
            · exact hf
            · rw [← hs'] at hp
              rw [h] at hp
              exact absurd (Except.ok.inj hp) hr

/-- The flag over a whole setter sequence. -/
theorem joinFlag_applyOps (ops : List JoinOp) (st : JoinState) :
    (st.applyOps ops).specified_as_right_ = true ↔
      st.specified_as_right_ = true ∨
        ∃ s, JoinOp.byStr s ∈ ops ∧ GetJoinEnum s = Except.ok JoinType.kRight := by
  induction ops generalizing st with
  | nil => simp [JoinState.applyOps]
  | cons op rest ih =>
      show ((st.applyOp op).applyOps rest).specified_as_right_ = true ↔ _
      rw [ih (st.applyOp op), joinFlag_applyOp]
      simp only [List.mem_cons]
      constructor
      · rintro ((hf | ⟨s, hs, hp⟩) | ⟨s, hs, hp⟩)
        · exact Or.inl hf
        · exact Or.inr ⟨s, Or.inl hs.symm, hp⟩
        · exact Or.inr ⟨s, Or.inr hs, hp⟩
      · rintro (hf | ⟨s, hs | hs, hp⟩)
        · exact Or.inl (Or.inl hf)
        · exact Or.inl (Or.inr ⟨s, hs.symm, hp⟩)
        · exact Or.inr ⟨s, hs, hp⟩

/-! ### Lemmas about the script map -/

/-- Entries whose key differs leave a lookup untouched. -/
theorem mkScriptsMapFrom_notmem (l : List CronScript)
    (m : String → Option CronScript) (k : String)
    (h : ∀ s ∈ l, uuidKey s ≠ k) : mkScriptsMapFrom m l k = m k := by
  induction l generalizing m with
  | nil => rfl
  | cons a rest ih =>
      show mkScriptsMapFrom (scMapInsert m a) rest k = m k
      rw [ih (scMapInsert m a) (fun s hs => h s (List.mem_cons_of_mem a hs))]
      simp only [scMapInsert]
      rw [if_neg (fun hk => h a (List.mem_cons_self a rest) hk.symm)]

/-- With pairwise-distinct UUID keys, the map sends each script's key to that
script. -/
theorem mkScriptsMapFrom_mem (l : List CronScript) (s : CronScript)
    (m : String → Option CronScript) (hs : s ∈ l)
    (hd : l.Pairwise (fun a b => uuidKey a ≠ uuidKey b)) :
    mkScriptsMapFrom m l (uuidKey s) = some s := by
  induction l generalizing m with
  | nil => cases hs
  | cons a rest ih =>
      rcases List.mem_cons.mp hs with h | h
      · subst h
        have hnone : ∀ b ∈ rest, uuidKey b ≠ uuidKey s := by
          intro b hb he
          exact (List.pairwise_cons.mp hd).1 b hb he.symm
        show mkScriptsMapFrom (scMapInsert m s) rest (uuidKey s) = some s
        rw [mkScriptsMapFrom_notmem rest _ _ hnone]
        simp [scMapInsert]
      · exact ih (scMapInsert m a) h (List.pairwise_cons.mp hd).2

/-- The Go `append` loop in `SetScripts` copies the request list verbatim. -/
theorem foldl_push (l acc : List CronScript) :
    l.foldl (fun a v => a ++ [v]) acc = acc ++ l := by
  induction l generalizing acc with
  | nil => simp
  | cons x rest ih =>
      show rest.foldl (fun a v => a ++ [v]) (acc ++ [x]) = acc ++ x :: rest
      rw [ih (acc ++ [x])]
      simp

/-! ## Claim theorems -/

/-- C1: when a parent/child pair is already joined by an edge,
`OptionallyCloneWithEdge` returns a newly created clone of the child (fresh
id, same type and per-variant attributes) wired to the parent, while the
original edge, the original child node, and every other node are left
unchanged in the graph; and in every reachable graph state no parent/child
pair carries more than one edge (the edge list stays duplicate-free). -/
theorem c1_duplicate_safe_attach (g : IR) (parent child : IRNode)
    (hwf : g.WF) (hp : parent ∈ g.nodes) (hc : child ∈ g.nodes)
    (he : g.HasEdge parent child = true) :
    (((g.OptionallyCloneWithEdge parent child).2).id = g.id_node_counter ∧
     g.hasNodeId ((g.OptionallyCloneWithEdge parent child).2).id = false ∧
     ((g.OptionallyCloneWithEdge parent child).2).id ≠ child.id) ∧
    (((g.OptionallyCloneWithEdge parent child).2).ntype = child.ntype ∧
     ((g.OptionallyCloneWithEdge parent child).2).payload = child.payload) ∧
    ((g.OptionallyCloneWithEdge parent child).2 ∈
      ((g.OptionallyCloneWithEdge parent child).1).nodes) ∧
    ((parent.id, ((g.OptionallyCloneWithEdge parent child).2).id) ∈
      ((g.OptionallyCloneWithEdge parent child).1).edges) ∧
    ((parent.id, child.id) ∈
      ((g.OptionallyCloneWithEdge parent child).1).edges) ∧
    (child ∈ ((g.OptionallyCloneWithEdge parent child).1).nodes) ∧
    (∀ n ∈ g.nodes, n ∈ ((g.OptionallyCloneWithEdge parent child).1).nodes) ∧
    (∀ gid ops, (((IR.empty gid).applyOps ops)).edges.Nodup) := by
  have hspec := OptionallyCloneWithEdge_spec hwf hc he
  rw [hspec]
  refine ⟨⟨rfl, counter_fresh hwf, (hwf.1 child hc).ne'⟩, ⟨rfl, rfl⟩,
    List.mem_append_right _ (List.mem_singleton_self _),
    List.mem_append_right _ (List.mem_singleton_self _),
    List.mem_append_left _ (HasEdge_iff.mp he),
    List.mem_append_left _ hc,
    fun n hn => List.mem_append_left _ hn,
    fun gid ops => (WF_applyOps (WF_empty gid) ops).2.2.2.1⟩

/-- C1 witness: the theorem applied to a concrete graph holding one Map
operator, one Column, and the edge between them. -/
theorem c1_duplicate_safe_attach_witness :
    demoGraph.WF ∧ demoParent ∈ demoGraph.nodes ∧
    demoChild ∈ demoGraph.nodes ∧
    demoGraph.HasEdge demoParent demoChild = true ∧
    ((((demoGraph.OptionallyCloneWithEdge demoParent demoChild).2).id =
        demoGraph.id_node_counter ∧
      demoGraph.hasNodeId
        ((demoGraph.OptionallyCloneWithEdge demoParent demoChild).2).id =
          false ∧
      ((demoGraph.OptionallyCloneWithEdge demoParent demoChild).2).id ≠
        demoChild.id) ∧
     (((demoGraph.OptionallyCloneWithEdge demoParent demoChild).2).ntype =
        demoChild.ntype ∧
      ((demoGraph.OptionallyCloneWithEdge demoParent demoChild).2).payload =
        demoChild.payload) ∧
     ((demoGraph.OptionallyCloneWithEdge demoParent demoChild).2 ∈
       ((demoGraph.OptionallyCloneWithEdge demoParent demoChild).1).nodes) ∧
     ((demoParent.id,
        ((demoGraph.OptionallyCloneWithEdge demoParent demoChild).2).id) ∈
       ((demoGraph.OptionallyCloneWithEdge demoParent demoChild).1).edges) ∧
     ((demoParent.id, demoChild.id) ∈
       ((demoGraph.OptionallyCloneWithEdge demoParent demoChild).1).edges) ∧
     (demoChild ∈
       ((demoGraph.OptionallyCloneWithEdge demoParent demoChild).1).nodes) ∧
     (∀ n ∈ demoGraph.nodes, n ∈
       ((demoGraph.OptionallyCloneWithEdge demoParent demoChild).1).nodes) ∧
     (∀ gid ops, (((IR.empty gid).applyOps ops)).edges.Nodup)) :=
  ⟨by decide, by decide, by decide, by decide,
   c1_duplicate_safe_attach demoGraph demoParent demoChild (by decide)
     (by decide) (by decide) (by decide)⟩

/-- C2 counterexample: copying the id-5 node of a *different* graph into a
fresh destination graph (allocator counter `0`) gives the copy id `5`, the
source's id — not an id from the destination graph's allocator, contrary to
the claim's cross-graph clause. -/
theorem c2_counterexample :
    demoNode5.graphGid ≠ (IR.empty 2).gid ∧
    (IR.empty 2).id_node_counter = 0 ∧
    (((IR.empty 2).CopyNode demoNode5).2).id = 5 ∧
    (((IR.empty 2).CopyNode demoNode5).2).id ≠ (IR.empty 2).id_node_counter := by
  refine ⟨by decide, rfl, rfl, by decide⟩

/-- C2 (amended): `IR::CopyNode` keeps the source node's id when copying
across graphs, and assigns the destination's `id_node_counter` — an id not
yet taken — when copying within the owning graph. -/
theorem c2_copy_node_id (g : IR) (s : IRNode) (hwf : g.WF) :
    (s.graphGid ≠ g.gid → ((g.CopyNode s).2).id = s.id) ∧
    (s.graphGid = g.gid →
      ((g.CopyNode s).2).id = g.id_node_counter ∧
      g.hasNodeId ((g.CopyNode s).2).id = false) := by
  constructor
  · intro hne
    show (if g.gid = s.graphGid then g.id_node_counter else s.id) = s.id
    rw [if_neg (fun hh => hne hh.symm)]
  · intro heq
    constructor
    · show (if g.gid = s.graphGid then g.id_node_counter else s.id) =
        g.id_node_counter
      rw [if_pos heq.symm]
    · show g.hasNodeId
        (if g.gid = s.graphGid then g.id_node_counter else s.id) = false
      rw [if_pos heq.symm]
      exact counter_fresh hwf

/-- C2 witness: the amended theorem applied to the concrete cross-graph
copy of `demoNode5`. -/
theorem c2_copy_node_id_witness :
    (IR.empty 2).WF ∧ demoNode5.graphGid ≠ (IR.empty 2).gid ∧
    (((IR.empty 2).CopyNode demoNode5).2).id = demoNode5.id :=
  ⟨WF_empty 2, by decide,
   (c2_copy_node_id (IR.empty 2) demoNode5 (WF_empty 2)).1 (by decide)⟩

/-- C3: the node-id counter never decreases across any operation sequence;
after creating a node with explicitly supplied id `k` the counter is
strictly greater than `k`; and no later automatically assigned id (the
counter at creation time) equals `k`. -/
theorem c3_counter_monotone (g : IR) (t t' : IRNodeType) (p p' : NodePayload)
    (k : Int) (ops : List GraphOp) :
    (∀ more, g.id_node_counter ≤ (g.applyOps more).id_node_counter) ∧
    k < ((g.MakeNode t p k).1).id_node_counter ∧
    ((((g.MakeNode t p k).1).applyOps ops).MakeNodeAuto t' p').2.id ≠ k := by
  have hk : k < ((g.MakeNode t p k).1).id_node_counter := by
    rw [MakeNode_counter]
    exact lt_of_lt_of_le (lt_add_one k) (le_max_left _ _)
  refine ⟨applyOps_counter_mono g, hk, ?_⟩
  have hmono := applyOps_counter_mono ((g.MakeNode t p k).1) ops
  show (((g.MakeNode t p k).1).applyOps ops).id_node_counter ≠ k
  exact ne_of_gt (lt_of_lt_of_le hk hmono)

/-- C4: `GroupByIR::ToProto` and `MetadataResolverIR::ToProto` return an
`Unimplemented` error (with the header's exact messages) for every
per-variant state and debug string; and among the operator variants, they
and `TabletSourceGroupIR` are the only ones whose ToProto produces no plan
encoding. -/
theorem c4_toproto_unimplemented (p : NodePayload) (d : String) :
    OperatorToProto kGroupBy p d =
      Except.error ⟨StatusCode.unimplemented, "ToProto not implemented."⟩ ∧
    OperatorToProto kMetadataResolver p d =
      Except.error ⟨StatusCode.unimplemented,
        "Calling ToProto on MetadataResolver, which lacks a Protobuf representation."⟩ ∧
    (∀ t : IRNodeType, t.isOperatorType = true →
      (isUnimplementedErr (OperatorToProto t p d) = true ↔
        t = kGroupBy ∨ t = kMetadataResolver ∨ t = kTabletSourceGroup)) := by
  refine ⟨rfl, rfl, ?_⟩
  intro t ht
  cases t <;> revert ht <;>
    simp [OperatorToProto, isUnimplementedErr, IRNodeType.isOperatorType,
      errorUnimplemented]

/-- C4 witness: the classification applied at the GroupBy variant. -/
theorem c4_toproto_unimplemented_witness :
    IRNodeType.isOperatorType kGroupBy = true ∧
    (isUnimplementedErr (OperatorToProto kGroupBy ⟨0⟩ "dbg") = true ↔
      (kGroupBy = kGroupBy ∨ kGroupBy = kMetadataResolver ∨
        kGroupBy = kTabletSourceGroup)) :=
  ⟨by decide,
   (c4_toproto_unimplemented ⟨0⟩ "dbg").2.2 kGroupBy (by decide)⟩

/-- C5: a `Time` literal stores the nanosecond count as a 64-bit integer,
but its `val()` accessor returns a `Bool` that is true exactly when the
stored value is nonzero, not the nanosecond value itself. -/
theorem c5_time_val_is_nonzero_check (id v : Int) :
    (TimeIR.Init id v).val_ = v ∧
    ((TimeIR.Init id v).val = true ↔ v ≠ 0) := by
  refine ⟨rfl, ?_⟩
  simp [TimeIR.val, TimeIR.Init, bne_iff_ne]

/-- C9: the metadata column-name formatter returns the lower-cased metadata
type name with the literal `_attr_` in front, except for the
unique-process-identifier type, which maps to the bare literal `upid`. -/
theorem c9_format_metadata_column (t : MetadataType) :
    FormatMetadataColumn t =
      if t = MetadataType.UPID then "upid"
      else "_attr_" ++ asciiStrToLower (MetadataType_Name t) := by
  cases t <;> decide

/-- C10: `specified_as_right_` is left untouched by the enum-based
`SetJoinType` (even for `kRight`), is set by the string-based overload on
the right-join string, and over any sequence of setter calls on a fresh
Join it becomes true exactly when some string-based call parsed to
`kRight`. -/
theorem c10_specified_as_right (st : JoinState) (jt : JoinType)
    (ops : List JoinOp) :
    ((SetJoinTypeEnum st jt).specified_as_right = st.specified_as_right) ∧
    ((SetJoinTypeEnum JoinState.fresh JoinType.kRight).specified_as_right =
      false) ∧
    ((SetJoinTypeStr JoinState.fresh "right").specified_as_right = true) ∧
    ((JoinState.fresh.applyOps ops).specified_as_right = true ↔
      ∃ s, JoinOp.byStr s ∈ ops ∧
        GetJoinEnum s = Except.ok JoinType.kRight) := by
  refine ⟨rfl, rfl, by decide, ?_⟩
  show (JoinState.fresh.applyOps ops).specified_as_right_ = true ↔ _
  rw [joinFlag_applyOps]
  simp [JoinState.fresh]

/-- C6 counterexample: when the injected store's `SetCronScripts` fails,
`Server.SetScripts` returns the error together with a *non-nil* empty
acknowledgement — not "that error with no response" as the claim states for
all four operations. -/
theorem c6_counterexample :
    (Server.SetScripts demoStoreErr [demoScript]).2 = some "boom" ∧
    (Server.SetScripts demoStoreErr [demoScript]).1 ≠ none := by
  refine ⟨rfl, by decide⟩

/-- C6 (amended): each operation delegates directly to the store and
forwards its error verbatim; `GetScripts`, `AddOrUpdateScript` and
`DeleteScript` return no response on error, while `SetScripts` returns an
empty acknowledgement alongside the untranslated error; on success
`GetScripts` returns the map from each script's UUID string to that script
and the other three return an empty acknowledgement. -/
theorem c6_store_delegation (ds : Store) (script : CronScript)
    (scripts : List CronScript) (sid : Option String) :
    (∀ e, ds.GetCronScripts = Except.error e →
        Server.GetScripts ds = (none, some e)) ∧
    (∀ l, ds.GetCronScripts = Except.ok l →
        Server.GetScripts ds = (some ⟨mkScriptsMap l⟩, none)) ∧
    (∀ l, ds.GetCronScripts = Except.ok l →
        l.Pairwise (fun a b => uuidKey a ≠ uuidKey b) →
        ∀ s ∈ l, mkScriptsMap l (uuidKey s) = some s) ∧
    (∀ e, ds.UpsertCronScript script = some e →
        Server.AddOrUpdateScript ds script = (none, some e)) ∧
    (ds.UpsertCronScript script = none →
        Server.AddOrUpdateScript ds script = (some (), none)) ∧
    (∀ e, ds.DeleteCronScript (UUIDFromProtoOrNil sid) = some e →
        Server.DeleteScript ds sid = (none, some e)) ∧
    (ds.DeleteCronScript (UUIDFromProtoOrNil sid) = none →
        Server.DeleteScript ds sid = (some (), none)) ∧
    (Server.SetScripts ds scripts = (some (), ds.SetCronScripts scripts)) := by
  refine ⟨?_, ?_, ?_, ?_, ?_, ?_, ?_, ?_⟩
  · intro e h
    simp [Server.GetScripts, h]
  · intro l h
    simp [Server.GetScripts, h]
  · intro l _ hd s hs
    exact mkScriptsMapFrom_mem l s _ hs hd
  · intro e h
    simp [Server.AddOrUpdateScript, h]
  · intro h
    simp [Server.AddOrUpdateScript, h]
  · intro e h
    simp [Server.DeleteScript, h]
  · intro h
    simp [Server.DeleteScript, h]
  · show (some (), ds.SetCronScripts
      (scripts.foldl (fun acc v => acc ++ [v]) [])) = _
    rw [foldl_push]
    rfl

/-- C6 witness: the amended theorem applied to a concrete store holding one
script. -/
theorem c6_store_delegation_witness :
    demoStoreOk.GetCronScripts = Except.ok [demoScript] ∧
    Server.GetScripts demoStoreOk = (some ⟨mkScriptsMap [demoScript]⟩, none) ∧
    mkScriptsMap [demoScript] (uuidKey demoScript) = some demoScript ∧
    Server.SetScripts demoStoreOk [demoScript] =
      (some (), demoStoreOk.SetCronScripts [demoScript]) :=
  ⟨rfl,
   (c6_store_delegation demoStoreOk demoScript [demoScript] none).2.1
     [demoScript] rfl,
   (c6_store_delegation demoStoreOk demoScript [demoScript] none).2.2.1
     [demoScript] rfl (List.pairwise_singleton _ _) demoScript
     (List.mem_singleton_self _),
   (c6_store_delegation demoStoreOk demoScript [demoScript] none).2.2.2.2.2.2.2⟩

/-- C7 counterexample: a run in which walking the skaffold search path fails
with an I/O error still completes successfully — the failure is logged by
`findTemplateFiles` and the run continues through rendering and the
subprocess launch, so not every I/O failure is fatal. -/
theorem c7_counterexample :
    demoDeployEnv.walk "/ws/skaffold" = Except.error "EACCES" ∧
    findTemplateFiles
        [("/ws/skaffold", demoDeployEnv.walk "/ws/skaffold"),
         ("/ws/services", demoDeployEnv.walk "/ws/services")] =
      (["svc/a.tmpl"],
       ["Error on findTemplateFiles while searching /ws/skaffold: EACCES"]) ∧
    mainDeploy demoFlags demoDeployEnv =
      (Except.ok (),
       [Effect.mkdirAll "/b", Effect.mkdirAll "/b/svc",
        Effect.wroteFile "/b/svc/a_dev.yaml",
        Effect.spawned "skaffold dev -f /b/skaffold/skaffold_dev.yaml"]) := by
  refine ⟨rfl, by decide, by decide⟩

/-- C7 (amended): failures in the confirmation stdin read, workspace
lookup, config read, config parse, output-file creation, template
rendering, output-file close, manifest lookup and the subprocess launch are
each fatal and terminate the run with a descriptive message, and the first
such failure stops the run; however, a walk failure during the template
scan is only logged, and the scan continues with the remaining paths. -/
theorem c7_failures_fatal_except_scan (env : DeployEnv)
    (f : Flags) (cf bd tp p e m s ev : String)
    (config : ServiceConfigExt) (tf : String) (tfs : List String)
    (rest : List (String × Except String FSTree))
    (srest : List (Except String String)) :
    (ev ≠ "dev" →
      getConfirmationForPush ev (Except.error e :: srest) =
        Except.error "Reading StdIn failed") ∧
    (env.workspaceRoot = Except.error e →
      loadConfig env cf bd =
        Except.error "WORKSPACE directory could not be found") ∧
    (env.workspaceRoot = Except.ok tp → env.readFile cf = Except.error e →
      loadConfig env cf bd =
        Except.error ("Cannot read config file: " ++ cf)) ∧
    (env.workspaceRoot = Except.ok tp → env.readFile cf = Except.ok s →
      env.unmarshalText s = Except.error e →
      loadConfig env cf bd = Except.error "Cannot Unmarshal protobuf.") ∧
    (env.createFile (yamlOutputFileFor bd tp config tf) = some e →
      (genOneConfig env bd tp config tf).2 =
        Except.error ("Could not create " ++ yamlOutputFileFor bd tp config tf)) ∧
    (env.createFile (yamlOutputFileFor bd tp config tf) = none →
      env.executeTemplate tf = some e →
      (genOneConfig env bd tp config tf).2 =
        Except.error "Could not create service yaml for skaffold (template error)") ∧
    (env.createFile (yamlOutputFileFor bd tp config tf) = none →
      env.executeTemplate tf = none →
      env.closeFile (yamlOutputFileFor bd tp config tf) = some e →
      (genOneConfig env bd tp config tf).2 =
        Except.error ("Cannot close output file: " ++
          yamlOutputFileFor bd tp config tf)) ∧
    ((genOneConfig env bd tp config tf).2 = Except.error m →
      generateServiceConfigs env bd tp config (tf :: tfs) =
        ((genOneConfig env bd tp config tf).1, Except.error m)) ∧
    (env.fileExists (pathJoin bd ("skaffold/skaffold_" ++
        (if f.prod then "prod" else "dev") ++ ".yaml")) = false →
      (startSkaffold env f bd).2 =
        Except.error ("Can't find skaffold file " ++
          pathJoin bd ("skaffold/skaffold_" ++
            (if f.prod then "prod" else "dev") ++ ".yaml") ++
          ". Skaffold cannot run")) ∧
    (env.fileExists (pathJoin bd ("skaffold/skaffold_" ++
        (if f.prod then "prod" else "dev") ++ ".yaml")) = true →
      env.runCmd ("skaffold " ++
        (if f.prod || f.staging then "run" else "dev") ++ " -f " ++
        pathJoin bd ("skaffold/skaffold_" ++
          (if f.prod then "prod" else "dev") ++ ".yaml")) = some e →
      (startSkaffold env f bd).2 =
        Except.error ("Error starting skaffold with cmd \"" ++
          ("skaffold " ++
            (if f.prod || f.staging then "run" else "dev") ++ " -f " ++
            pathJoin bd ("skaffold/skaffold_" ++
              (if f.prod then "prod" else "dev") ++ ".yaml")) ++ "\".")) ∧
    (findTemplateFiles ((p, Except.error e) :: rest) =
      ((findTemplateFiles rest).1,
       ("Error on findTemplateFiles while searching " ++ p ++ ": " ++ e)
         :: (findTemplateFiles rest).2)) := by
  refine ⟨?_, ?_, ?_, ?_, ?_, ?_, ?_, ?_, ?_, ?_, rfl⟩
  · intro h
    simp [getConfirmationForPush, h, confirmLoop]
  · intro h
    simp [loadConfig, h]
  · intro h1 h2
    simp [loadConfig, h1, h2]
  · intro h1 h2 h3
    simp [loadConfig, h1, h2, h3]
  · intro h
    simp [genOneConfig, h]
  · intro h1 h2
    simp [genOneConfig, h1, h2]
  · intro h1 h2 h3
    simp [genOneConfig, h1, h2, h3]
  · intro h
    simp [generateServiceConfigs, h]
  · intro h
    simp [startSkaffold, h]
  · intro h1 h2
    simp only [Bool.or_eq_true] at h2
    simp [startSkaffold, h1, h2]

/-- C7 witness: the amended theorem applied concretely — a fatal stdin read
during a prod confirmation, a fatal workspace lookup, a fatal skaffold
subprocess exit, and a one-element failing scan that merely logs. -/
theorem c7_failures_fatal_except_scan_witness :
    getConfirmationForPush "prod" [Except.error "tty gone"] =
      Except.error "Reading StdIn failed" ∧
    loadConfig demoFailEnv "cf" "bd" =
      Except.error "WORKSPACE directory could not be found" ∧
    (startSkaffold demoRunFailEnv demoFlags "/b").2 =
      Except.error
        "Error starting skaffold with cmd \"skaffold dev -f /b/skaffold/skaffold_dev.yaml\"." ∧
    findTemplateFiles [("p", Except.error "E")] =
      ([], ["Error on findTemplateFiles while searching p: E"]) :=
  ⟨(c7_failures_fatal_except_scan demoFailEnv demoFlags "cf" "bd" "tp" "p"
      "tty gone" "m" "s" "prod" ⟨⟨"dev"⟩, "bd"⟩ "tf" [] [] []).1 (by decide),
   (c7_failures_fatal_except_scan demoFailEnv demoFlags "cf" "bd" "tp" "p"
      "no ws" "m" "s" "prod" ⟨⟨"dev"⟩, "bd"⟩ "tf" [] [] []).2.1 rfl,
   (c7_failures_fatal_except_scan demoRunFailEnv demoFlags "cf" "/b" "tp" "p"
      "exit 1" "m" "s" "prod" ⟨⟨"dev"⟩, "bd"⟩ "tf" [] [] []).2.2.2.2.2.2.2.2.2.1
     rfl rfl,
   (c7_failures_fatal_except_scan demoFailEnv demoFlags "cf" "bd" "tp" "p"
      "E" "m" "s" "prod" ⟨⟨"dev"⟩, "bd"⟩ "tf" [] [] []).2.2.2.2.2.2.2.2.2.2⟩

/-- C8: invoking the generator with both `--staging` and `--prod` set makes
`parseArgs` terminate the process fatally, whatever the build dir, before
any directory is created, any manifest written, or any subprocess spawned
(the effect list is empty). -/
theorem c8_staging_prod_exclusive (b : String) (env : DeployEnv) :
    mainDeploy ⟨b, true, true⟩ env =
      (Except.error (if b = "" then
          "Flag --build_dir is required. Please specify build_dir as an argument. Refer to the usage menu (-h) for more help."
        else
          "Flags --prod and --staging can only be used exclusively. Please remove one to specify the environment"),
       []) := by
  by_cases hb : b = ""
  · simp [mainDeploy, parseArgs, hb]
  · simp [mainDeploy, parseArgs, hb]

end Pixie
